import Mathlib

/-!
Verification of the gokv key-value store contract and its adapters
(pebble, nutsdb, ristretto) against the natural-language specification.

The adapters' `Store.Set` / `Store.Get` / `Store.Delete` methods and the
defaulting blocks of their `NewStore` constructors are embedded as pure
Lean functions.  The external storage engines (Pebble, NutsDB, Ristretto)
are abstracted as records of operations over an explicit state type, and
functional association-list instances model a healthy engine for concrete
evaluation.
-/

namespace Gokv

/-- A stored byte sequence (Go byte slice). -/
abbrev Bytes := List Nat

/-- A Go interface value as passed to `Set`/`Get`: either `nil` or a concrete value. -/
inductive GoVal (α : Type) where
  | nil : GoVal α
  | val : α → GoVal α
deriving DecidableEq

/-- The error taxonomy of the contract: validation errors, codec errors,
the engine's explicit not-found signal, opaque engine faults, and the
ristretto-specific sentinels `ErrPairIsNotAdded` / `ErrFailedToCast`. -/
inductive Err where
  | emptyKey : Err
  | nilValue : Err
  | marshalFail : Nat → Err
  | unmarshalFail : Nat → Err
  | engineNotFound : Err
  | engineFail : Nat → Err
  | pairIsNotAdded : Err
  | failedToCast : Err
deriving DecidableEq

/-- The codec capability (`encoding.Codec`): `Marshal` turns a value into bytes,
`Unmarshal` populates a target from bytes.  Abstract here; concrete codecs
(JSON, gob) live outside the embedded sources. -/
structure Codec (α : Type) where
  Marshal : GoVal α → Except Err Bytes
  Unmarshal : Bytes → Except Err α

/-- Result of a `Store.Get` call: the found flag, the returned error, and the
value written through the caller's output pointer (`none` when the target was
never populated). -/
structure GetResult (α : Type) where
  found : Bool
  err : Option Err
  out : Option α
deriving DecidableEq

namespace util

/-- Modelled from the spec: `util.CheckKey` (package `gokv/util`, whose source is
not included here) fails with the empty-key validation error iff the key is empty. -/
def CheckKey (k : String) : Option Err :=
  if k = "" then some Err.emptyKey else none

/-- Modelled from the spec: `util.CheckKeyAndValue` runs `CheckKey`, then fails with
the nil-value validation error iff the value (or output target) is nil. -/
def CheckKeyAndValue {α : Type} (k : String) (v : GoVal α) : Option Err :=
  match CheckKey k with
  | some e => some e
  | none =>
    match v with
    | GoVal.nil => some Err.nilValue
    | GoVal.val _ => none

end util

/-- Association-list lookup, keyed by a decidable key type; models the
engine-held map from keys to stored records. -/
def kvLookup {κ β : Type} [DecidableEq κ] : List (κ × β) → κ → Option β
  | [], _ => none
  | (k', v) :: rest, k => if k' = k then some v else kvLookup rest k

/-- Remove every binding of a key from an association list. -/
def kvRemove {κ β : Type} [DecidableEq κ] : List (κ × β) → κ → List (κ × β)
  | [], _ => []
  | (k', v) :: rest, k => if k' = k then kvRemove rest k else (k', v) :: kvRemove rest k

/-- Insert a binding, overwriting any previous binding of the same key. -/
def kvInsert {κ β : Type} [DecidableEq κ] (st : List (κ × β)) (k : κ) (v : β) :
    List (κ × β) :=
  (k, v) :: kvRemove st k

theorem kvLookup_kvInsert_self {κ β : Type} [DecidableEq κ] (st : List (κ × β)) (k : κ)
    (v : β) : kvLookup (kvInsert st k v) k = some v := by
  simp [kvInsert, kvLookup]

theorem kvLookup_kvRemove_self {κ β : Type} [DecidableEq κ] (st : List (κ × β)) (k : κ) :
    kvLookup (kvRemove st k) k = none := by
  induction st with
  | nil => simp [kvRemove, kvLookup]
  | cons p rest ih =>
    obtain ⟨k', v⟩ := p
    by_cases h : k' = k
    · simp [kvRemove, h, ih]
    · simp [kvRemove, kvLookup, h, ih]

theorem kvRemove_kvRemove_self {κ β : Type} [DecidableEq κ] (st : List (κ × β)) (k : κ) :
    kvRemove (kvRemove st k) k = kvRemove st k := by
  induction st with
  | nil => simp [kvRemove]
  | cons p rest ih =>
    obtain ⟨k', v⟩ := p
    by_cases h : k' = k
    · simp [kvRemove, h, ih]
    · simp [kvRemove, h, ih]

theorem kvRemove_eq_self_of_lookup_none {κ β : Type} [DecidableEq κ]
    (st : List (κ × β)) (k : κ) (h : kvLookup st k = none) : kvRemove st k = st := by
  induction st with
  | nil => simp [kvRemove]
  | cons p rest ih =>
    obtain ⟨k', v⟩ := p
    by_cases hk : k' = k
    · simp [kvLookup, hk] at h
    · simp [kvLookup, hk] at h
      simp [kvRemove, hk, ih h]

/-- Codec identity held in an adapter's options (`encoding.Codec` field):
`none` is a nil interface value, `some' covers `encoding.JSON`, `encoding.Gob`
and any other concrete codec. -/
inductive CodecTag where
  | JSON : CodecTag
  | Gob : CodecTag
  | custom : Nat → CodecTag
deriving DecidableEq

namespace pebble

/-- The external Pebble engine handle (field `db` of `pebble.Store`), per its
interface: `Get` returns the stored bytes plus the result of closing the
returned closer, or the explicit not-found signal (`pebble.ErrNotFound`,
modelled as `Err.engineNotFound`); `Set`/`Delete` receive the sync flag of
the write options built by the adapter. -/
structure DB (σ : Type) where
  Set : σ → String → Bytes → Bool → Option Err × σ
  Get : σ → String → Except Err (Bytes × Option Err)
  Delete : σ → String → Bool → Option Err × σ

/-- `pebble.Store`: engine handle, write-sync flag and codec. -/
structure Store (σ α : Type) where
  db : DB σ
  writeSync : Bool
  codec : Codec α

/-- `pebble.Store.Set`: check key and value, marshal, write the bytes under
the key (with the write options derived from `writeSync`). -/
def Store.Set {σ α : Type} (s : Store σ α) (st : σ) (k : String) (v : GoVal α) :
    Option Err × σ :=
  match util.CheckKeyAndValue k v with
  | some e => (some e, st)
  | none =>
    match s.codec.Marshal v with
    | Except.error e => (some e, st)
    | Except.ok data => s.db.Set st k data s.writeSync

/-- `pebble.Store.Get`: check key and target, look the key up in the engine;
`pebble.ErrNotFound` becomes `(false, nil)`, any other lookup error is
returned; on success the closer is closed (its error is assigned to `err`
and then discarded by the final return) and the bytes are unmarshalled into
the target. -/
def Store.Get {σ α : Type} (s : Store σ α) (st : σ) (k : String) (v : GoVal α) :
    GetResult α :=
  match util.CheckKeyAndValue k v with
  | some e => ⟨false, some e, none⟩
  | none =>
    match s.db.Get st k with
    | Except.error e =>
      if e = Err.engineNotFound then ⟨false, none, none⟩ else ⟨false, some e, none⟩
    | Except.ok (data, _closerErr) =>
      match s.codec.Unmarshal data with
      | Except.error e => ⟨true, some e, none⟩
      | Except.ok a => ⟨true, none, some a⟩

/-- `pebble.Store.Delete`: check the key, then delete through the engine. -/
def Store.Delete {σ α : Type} (s : Store σ α) (st : σ) (k : String) : Option Err × σ :=
  match util.CheckKey k with
  | some e => (some e, st)
  | none => s.db.Delete st k s.writeSync

/-- `pebble.Options`: DB path, write-sync flag, codec. -/
structure Options where
  Path : String
  WriteSync : Bool
  Codec : Option CodecTag
deriving DecidableEq

/-- `pebble.DefaultOptions`: Path "pebble", WriteSync false, Codec JSON. -/
def DefaultOptions : Options :=
  { Path := "pebble", WriteSync := false, Codec := some CodecTag.JSON }

/-- The package-level mutable state of the pebble adapter: its
`DefaultOptions` variable. -/
structure PkgState where
  DefaultOptions : Options
deriving DecidableEq

/-- The defaulting block at the start of `pebble.NewStore`, statement by
statement over the pair (package state, local by-value `options`): an unset
`Path` or `Codec` is replaced by the corresponding `DefaultOptions` field. -/
def NewStore.setDefaults (s : PkgState × Options) : PkgState × Options :=
  let s := if s.2.Path = "" then (s.1, { s.2 with Path := s.1.DefaultOptions.Path }) else s
  let s := if s.2.Codec = none then (s.1, { s.2 with Codec := s.1.DefaultOptions.Codec }) else s
  s

end pebble

namespace nutsdb

/-- The external NutsDB engine handle, per its interface: bucket-aware
get/put/delete run inside `View`/`Update` transactions; `Get` either fails
(also when the key is absent) or returns an entry whose `Value` may be nil;
`Put` takes a TTL. -/
structure DB (σ : Type) where
  Get : σ → String → String → Except Err (Option Bytes)
  Put : σ → String → String → Bytes → Nat → Option Err × σ
  Delete : σ → String → String → Option Err × σ

/-- `nutsdb.Store`: engine handle, bucket name and codec. -/
structure Store (σ α : Type) where
  db : DB σ
  bucketName : String
  codec : Codec α

/-- `nutsdb.Store.Set`: check key and value, marshal, put the bytes under the
key in the store's bucket (TTL 0); the transaction's error is returned. -/
def Store.Set {σ α : Type} (s : Store σ α) (st : σ) (k : String) (v : GoVal α) :
    Option Err × σ :=
  match util.CheckKeyAndValue k v with
  | some e => (some e, st)
  | none =>
    match s.codec.Marshal v with
    | Except.error e => (some e, st)
    | Except.ok data => s.db.Put st s.bucketName k data 0

/-- `nutsdb.Store.Get`: check key and target, run a view transaction copying
the entry's value; ANY transaction error is answered with `(false, nil)`,
a nil copied value is answered with `(false, nil)`, otherwise the bytes are
unmarshalled into the target. -/
def Store.Get {σ α : Type} (s : Store σ α) (st : σ) (k : String) (v : GoVal α) :
    GetResult α :=
  match util.CheckKeyAndValue k v with
  | some e => ⟨false, some e, none⟩
  | none =>
    match s.db.Get st s.bucketName k with
    | Except.error _ => ⟨false, none, none⟩
    | Except.ok none => ⟨false, none, none⟩
    | Except.ok (some data) =>
      match s.codec.Unmarshal data with
      | Except.error e => ⟨true, some e, none⟩
      | Except.ok a => ⟨true, none, some a⟩

/-- `nutsdb.Store.Delete`: check the key, then delete through the engine in
an update transaction. -/
def Store.Delete {σ α : Type} (s : Store σ α) (st : σ) (k : String) : Option Err × σ :=
  match util.CheckKey k with
  | some e => (some e, st)
  | none => s.db.Delete st s.bucketName k

/-- `nutsdb.Options`: bucket name, DB path, sync flag, node number, codec. -/
structure Options where
  BucketName : String
  Path : String
  Sync : Bool
  NodeNum : Int
  Codec : Option CodecTag
deriving DecidableEq

/-- `nutsdb.DefaultOptions`: BucketName "default", Path "nuts.db", Sync false,
NodeNum 1, Codec JSON. -/
def DefaultOptions : Options :=
  { BucketName := "default", Path := "nuts.db", Sync := false, NodeNum := 1,
    Codec := some CodecTag.JSON }

/-- The package-level mutable state of the nutsdb adapter: its
`DefaultOptions` variable. -/
structure PkgState where
  DefaultOptions : Options
deriving DecidableEq

/-- The defaulting block at the start of `nutsdb.NewStore`, statement by
statement: unset `BucketName`, `Path`, `Codec`, `NodeNum` are replaced by
the corresponding `DefaultOptions` fields. -/
def NewStore.setDefaults (s : PkgState × Options) : PkgState × Options :=
  let s := if s.2.BucketName = "" then
    (s.1, { s.2 with BucketName := s.1.DefaultOptions.BucketName }) else s
  let s := if s.2.Path = "" then (s.1, { s.2 with Path := s.1.DefaultOptions.Path }) else s
  let s := if s.2.Codec = none then (s.1, { s.2 with Codec := s.1.DefaultOptions.Codec }) else s
  let s := if s.2.NodeNum = 0 then
    (s.1, { s.2 with NodeNum := s.1.DefaultOptions.NodeNum }) else s
  s

end nutsdb

namespace ristretto

/-- A value of Go interface type as held in the Ristretto cache: nil, a byte
slice (what the adapter stores), or a value of some other type for which the
type assertion to a byte slice fails. -/
inductive IVal where
  | nil : IVal
  | bytes : Bytes → IVal
  | other : Nat → IVal
deriving DecidableEq

/-- The external Ristretto cache handle, per its interface: `Get` returns
(value, ok); `Set` takes a cost and reports whether the pair was admitted;
`Del` always succeeds. -/
structure Cache (σ : Type) where
  Get : σ → String → IVal × Bool
  Set : σ → String → Bytes → Nat → Bool × σ
  Del : σ → String → σ

/-- `ristretto.Store`: cache handle and codec. -/
structure Store (σ α : Type) where
  db : Cache σ
  codec : Codec α

/-- `ristretto.Store.Set`: check key and value, marshal, set with cost 0;
if the cache declines admission return `ErrPairIsNotAdded`
(`Err.pairIsNotAdded`), otherwise nil. -/
def Store.Set {σ α : Type} (s : Store σ α) (st : σ) (k : String) (v : GoVal α) :
    Option Err × σ :=
  match util.CheckKeyAndValue k v with
  | some e => (some e, st)
  | none =>
    match s.codec.Marshal v with
    | Except.error e => (some e, st)
    | Except.ok data =>
      match s.db.Set st k data 0 with
      | (false, st') => (some Err.pairIsNotAdded, st')
      | (true, st') => (none, st')

/-- `ristretto.Store.Get`: check key and target; a miss or a nil cached value
is `(false, nil)`; a cached value that is not a byte slice is
`ErrFailedToCast` (`Err.failedToCast`); otherwise the bytes are unmarshalled
into the target. -/
def Store.Get {σ α : Type} (s : Store σ α) (st : σ) (k : String) (v : GoVal α) :
    GetResult α :=
  match util.CheckKeyAndValue k v with
  | some e => ⟨false, some e, none⟩
  | none =>
    match s.db.Get st k with
    | (value, ok) =>
      if ok = false ∨ value = IVal.nil then ⟨false, none, none⟩
      else
        match value with
        | IVal.bytes data =>
          match s.codec.Unmarshal data with
          | Except.error e => ⟨true, some e, none⟩
          | Except.ok a => ⟨true, none, some a⟩
        | _ => ⟨false, some Err.failedToCast, none⟩

/-- `ristretto.Store.Delete`: check the key, call `Del`, return nil. -/
def Store.Delete {σ α : Type} (s : Store σ α) (st : σ) (k : String) : Option Err × σ :=
  match util.CheckKey k with
  | some e => (some e, st)
  | none => (none, s.db.Del st k)

/-- `ristretto.Options`: counters, max cost, buffer size, metrics flag, codec. -/
structure Options where
  NumCounters : Int
  MaxCost : Int
  BufferItems : Int
  Metrics : Bool
  Codec : Option CodecTag
deriving DecidableEq

/-- `ristretto.DefaultOptions`: NumCounters 1000, MaxCost 100, BufferItems 64,
Metrics false, Codec JSON. -/
def DefaultOptions : Options :=
  { NumCounters := 1000, MaxCost := 100, BufferItems := 64, Metrics := false,
    Codec := some CodecTag.JSON }

/-- The package-level mutable state of the ristretto adapter: its
`DefaultOptions` variable. -/
structure PkgState where
  DefaultOptions : Options
deriving DecidableEq

/-- The defaulting block at the start of `ristretto.NewStore`, statement by
statement, keeping the source's conditions verbatim: the `Codec` nil check,
then the three self-comparisons `options.X == options.X` guarding
`NumCounters`, `MaxCost` and `BufferItems`. -/
def NewStore.setDefaults (s : PkgState × Options) : PkgState × Options :=
  let s := if s.2.Codec = none then (s.1, { s.2 with Codec := s.1.DefaultOptions.Codec }) else s
  let s := if s.2.NumCounters = s.2.NumCounters then
    (s.1, { s.2 with NumCounters := s.1.DefaultOptions.NumCounters }) else s
  let s := if s.2.MaxCost = s.2.MaxCost then
    (s.1, { s.2 with MaxCost := s.1.DefaultOptions.MaxCost }) else s
  let s := if s.2.BufferItems = s.2.BufferItems then
    (s.1, { s.2 with BufferItems := s.1.DefaultOptions.BufferItems }) else s
  s

end ristretto

/-- Functional instance of a healthy Pebble engine over an association-list
state: lookups of absent keys yield the not-found signal, closers close
without error, writes and deletes succeed. -/
def pebbleMapDB : pebble.DB (List (String × Bytes)) where
  Set st k data _sync := (none, kvInsert st k data)
  Get st k :=
    match kvLookup st k with
    | none => Except.error Err.engineNotFound
    | some data => Except.ok (data, none)
  Delete st k _sync := (none, kvRemove st k)

/-- Functional instance of a healthy NutsDB engine over an association-list
state keyed by (bucket, key): lookups of absent keys fail with the engine's
not-found error, writes and deletes succeed. -/
def nutsMapDB : nutsdb.DB (List ((String × String) × Bytes)) where
  Get st b k :=
    match kvLookup st (b, k) with
    | none => Except.error Err.engineNotFound
    | some data => Except.ok (some data)
  Put st b k data _ttl := (none, kvInsert st (b, k) data)
  Delete st b k := (none, kvRemove st (b, k))

/-- Functional instance of a healthy, always-admitting Ristretto cache over
an association-list state. -/
def ristrettoMapCache : ristretto.Cache (List (String × ristretto.IVal)) where
  Get st k :=
    match kvLookup st k with
    | none => (ristretto.IVal.nil, false)
    | some v => (v, true)
  Set st k data _cost := (true, kvInsert st k (ristretto.IVal.bytes data))
  Del st k := kvRemove st k

/-- A NutsDB engine instance whose lookup fails with an opaque engine fault
(not the not-found signal), for concrete evaluation of the error path. -/
def nutsFaultyDB : nutsdb.DB Unit where
  Get _ _ _ := Except.error (Err.engineFail 7)
  Put _ _ _ _ _ := (none, ())
  Delete _ _ _ := (none, ())

/-- A Pebble engine instance whose lookup succeeds but whose closer fails on
`Close`, for concrete evaluation of the closer error path. -/
def pebbleCloserFaultDB : pebble.DB Unit where
  Set _ _ _ _ := (none, ())
  Get _ _ := Except.ok ([5], some (Err.engineFail 3))
  Delete _ _ _ := (none, ())

/-- A Ristretto cache instance that declines admission of every pair. -/
def decliningCache : ristretto.Cache Unit where
  Get _ _ := (ristretto.IVal.nil, false)
  Set st _ _ _ := (false, st)
  Del st _ := st

/-- A Ristretto cache instance holding a nil value under every key with the
ok flag set, for concrete evaluation of the present-but-nil path. -/
def nilEntryCache : ristretto.Cache Unit where
  Get _ _ := (ristretto.IVal.nil, true)
  Set st _ _ _ := (true, st)
  Del st _ := st

/-- A concrete codec used only to evaluate the stores on concrete inputs:
a natural number n is encoded as the singleton byte sequence holding n;
any other byte sequence fails to unmarshal, and nil fails to marshal. -/
def natCodec : Codec Nat where
  Marshal v :=
    match v with
    | GoVal.nil => Except.error (Err.marshalFail 0)
    | GoVal.val n => Except.ok [n]
  Unmarshal data :=
    match data with
    | [n] => Except.ok n
    | _ => Except.error (Err.unmarshalFail 0)

/-- C1: for every open store (pebble and ristretto over healthy engines),
every non-empty key k and every non-nil value the codec can marshal (and
faithfully unmarshal, the codec-fidelity limit), a `Set k v` that returns
nil is followed by a `Get k` that returns `(true, nil)` with the target
populated with v — regardless of whatever the engine previously held under
k, so `Set` overwrites any prior value. -/
theorem C1_set_then_get_roundtrip {α : Type} [DecidableEq α] (codec : Codec α)
    (k : String) (a a0 : α) (data : Bytes) (ws : Bool)
    (stP : List (String × Bytes)) (stR : List (String × ristretto.IVal))
    (hk : k ≠ "")
    (hm : codec.Marshal (GoVal.val a) = Except.ok data)
    (hu : codec.Unmarshal data = Except.ok a) :
    ((pebble.Store.Set ⟨pebbleMapDB, ws, codec⟩ stP k (GoVal.val a)).1 = none ∧
      pebble.Store.Get ⟨pebbleMapDB, ws, codec⟩
        (pebble.Store.Set ⟨pebbleMapDB, ws, codec⟩ stP k (GoVal.val a)).2 k
        (GoVal.val a0) = ⟨true, none, some a⟩) ∧
    ((ristretto.Store.Set ⟨ristrettoMapCache, codec⟩ stR k (GoVal.val a)).1 = none ∧
      ristretto.Store.Get ⟨ristrettoMapCache, codec⟩
        (ristretto.Store.Set ⟨ristrettoMapCache, codec⟩ stR k (GoVal.val a)).2 k
        (GoVal.val a0) = ⟨true, none, some a⟩) := by
  constructor
  · constructor
    · simp [pebble.Store.Set, util.CheckKeyAndValue, util.CheckKey, hk, hm, pebbleMapDB]
    · simp [pebble.Store.Set, pebble.Store.Get, util.CheckKeyAndValue, util.CheckKey,
        hk, hm, hu, pebbleMapDB, kvLookup_kvInsert_self]
  · constructor
    · simp [ristretto.Store.Set, util.CheckKeyAndValue, util.CheckKey, hk, hm,
        ristrettoMapCache]
    · simp [ristretto.Store.Set, ristretto.Store.Get, util.CheckKeyAndValue,
        util.CheckKey, hk, hm, hu, ristrettoMapCache, kvLookup_kvInsert_self]

/-- C1 witness: concrete evaluation with the toy codec, key "x", value 5, a
prior value stored under "x" in both engines. -/
theorem C1_set_then_get_roundtrip_witness :
    (("x" : String) ≠ "" ∧
      Gokv.natCodec.Marshal (GoVal.val 5) = Except.ok [5] ∧
      Gokv.natCodec.Unmarshal [5] = Except.ok 5) ∧
    (((pebble.Store.Set ⟨pebbleMapDB, false, natCodec⟩ [("x", [9])] "x"
        (GoVal.val 5)).1 = none ∧
      pebble.Store.Get ⟨pebbleMapDB, false, natCodec⟩
        (pebble.Store.Set ⟨pebbleMapDB, false, natCodec⟩ [("x", [9])] "x"
          (GoVal.val 5)).2 "x" (GoVal.val 0) = ⟨true, none, some 5⟩) ∧
    ((ristretto.Store.Set ⟨ristrettoMapCache, natCodec⟩
        [("x", ristretto.IVal.other 3)] "x" (GoVal.val 5)).1 = none ∧
      ristretto.Store.Get ⟨ristrettoMapCache, natCodec⟩
        (ristretto.Store.Set ⟨ristrettoMapCache, natCodec⟩
          [("x", ristretto.IVal.other 3)] "x" (GoVal.val 5)).2 "x"
        (GoVal.val 0) = ⟨true, none, some 5⟩)) :=
  ⟨⟨by decide, rfl, rfl⟩,
    C1_set_then_get_roundtrip natCodec "x" 5 0 [5] false [("x", [9])]
      [("x", ristretto.IVal.other 3)] (by decide) rfl rfl⟩

/-- C2: evaluation of the code at failing inputs. The nutsdb adapter's `Get`
turns an opaque engine fault (`Err.engineFail 7`, not the not-found signal)
into `(false, nil)`, silently dropping the error; the pebble adapter's `Get`
assigns the closer's `Close` error (`Err.engineFail 3`) to `err` and then
discards it, returning `(true, nil)`. Both contradict the claim that every
non-not-found engine error met during `Get` is returned to the caller. -/
theorem C2_get_engine_error_dropped :
    nutsdb.Store.Get ⟨nutsFaultyDB, "default", natCodec⟩ () "k" (GoVal.val 0) =
      ⟨false, none, none⟩ ∧
    pebble.Store.Get ⟨pebbleCloserFaultDB, false, natCodec⟩ () "k" (GoVal.val 0) =
      ⟨true, none, some 5⟩ := by
  constructor
  · rfl
  · rfl

/-- C3: evaluation of the ristretto defaulting block at a failing input. The
caller sets NumCounters 5000, MaxCost 200, BufferItems 128; because the
guards compare each option field to itself (always true), all three are
reset to the defaults 1000, 100 and 64 instead of keeping the caller's
values, while Codec and Metrics are kept. -/
theorem C3_ristretto_defaulting_overwrites_set_fields :
    (ristretto.NewStore.setDefaults
      (⟨ristretto.DefaultOptions⟩,
        { NumCounters := 5000, MaxCost := 200, BufferItems := 128, Metrics := true,
          Codec := some CodecTag.Gob })).2 =
      { NumCounters := 1000, MaxCost := 100, BufferItems := 64, Metrics := true,
        Codec := some CodecTag.Gob } ∧
    (5000 : Int) ≠ 1000 ∧ (200 : Int) ≠ 100 ∧ (128 : Int) ≠ 64 := by
  refine ⟨rfl, by decide, by decide, by decide⟩

/-- C4: for every non-empty key absent from the engine (never written, or
removed by a `Delete` since the last write), `Get` on each adapter over its
healthy engine returns `(false, nil)` and never populates the caller's
target: absence is reported through the found flag, not as an error. -/
theorem C4_get_absent_false_nil {α : Type} [DecidableEq α] (codec : Codec α)
    (k b : String) (a0 : α) (ws : Bool)
    (stP stP2 : List (String × Bytes)) (stR : List (String × ristretto.IVal))
    (stN : List ((String × String) × Bytes))
    (hk : k ≠ "")
    (hP : kvLookup stP k = none)
    (hR : kvLookup stR k = none)
    (hN : kvLookup stN (b, k) = none) :
    pebble.Store.Get ⟨pebbleMapDB, ws, codec⟩ stP k (GoVal.val a0) =
      ⟨false, none, none⟩ ∧
    ristretto.Store.Get ⟨ristrettoMapCache, codec⟩ stR k (GoVal.val a0) =
      ⟨false, none, none⟩ ∧
    nutsdb.Store.Get ⟨nutsMapDB, b, codec⟩ stN k (GoVal.val a0) =
      ⟨false, none, none⟩ ∧
    pebble.Store.Get ⟨pebbleMapDB, ws, codec⟩
      (pebble.Store.Delete ⟨pebbleMapDB, ws, codec⟩ stP2 k).2 k (GoVal.val a0) =
      ⟨false, none, none⟩ := by
  refine ⟨?_, ?_, ?_, ?_⟩
  · simp [pebble.Store.Get, util.CheckKeyAndValue, util.CheckKey, hk, pebbleMapDB, hP]
  · simp [ristretto.Store.Get, util.CheckKeyAndValue, util.CheckKey, hk,
      ristrettoMapCache, hR]
  · simp [nutsdb.Store.Get, util.CheckKeyAndValue, util.CheckKey, hk, nutsMapDB, hN]
  · simp [pebble.Store.Get, pebble.Store.Delete, util.CheckKeyAndValue, util.CheckKey,
      hk, pebbleMapDB, kvLookup_kvRemove_self]

/-- C4 witness: concrete evaluation with key "x" absent from every engine
state (and present in the state that is deleted from first). -/
theorem C4_get_absent_false_nil_witness :
    (("x" : String) ≠ "" ∧
      kvLookup [(("y" : String), ([1] : Bytes))] "x" = none ∧
      kvLookup ([] : List (String × ristretto.IVal)) "x" = none ∧
      kvLookup [((("b" : String), ("y" : String)), ([1] : Bytes))] ("b", "x") = none) ∧
    (pebble.Store.Get ⟨pebbleMapDB, false, natCodec⟩ [("y", [1])] "x" (GoVal.val 0) =
      ⟨false, none, none⟩ ∧
    ristretto.Store.Get ⟨ristrettoMapCache, natCodec⟩ [] "x" (GoVal.val 0) =
      ⟨false, none, none⟩ ∧
    nutsdb.Store.Get ⟨nutsMapDB, "b", natCodec⟩ [(("b", "y"), [1])] "x" (GoVal.val 0) =
      ⟨false, none, none⟩ ∧
    pebble.Store.Get ⟨pebbleMapDB, false, natCodec⟩
      (pebble.Store.Delete ⟨pebbleMapDB, false, natCodec⟩ [("x", [5])] "x").2 "x"
      (GoVal.val 0) = ⟨false, none, none⟩) :=
  ⟨⟨by decide, by decide, by decide, by decide⟩,
    C4_get_absent_false_nil natCodec "x" "b" 0 false [("y", [1])] [("x", [5])] []
      [(("b", "y"), [1])] (by decide) (by decide) (by decide) (by decide)⟩

/-- C5: on each adapter over its healthy engine, deleting an absent non-empty
key returns nil and leaves the engine state unchanged, and a repeated
`Delete` of the same key after a first one is a no-op on the state and also
returns nil: `Delete` is idempotent. -/
theorem C5_delete_idempotent {α : Type} (codec : Codec α) (k b : String) (ws : Bool)
    (stP : List (String × Bytes)) (stR : List (String × ristretto.IVal))
    (stN : List ((String × String) × Bytes))
    (hk : k ≠ "") :
    (kvLookup stP k = none →
      pebble.Store.Delete ⟨pebbleMapDB, ws, codec⟩ stP k = (none, stP)) ∧
    pebble.Store.Delete ⟨pebbleMapDB, ws, codec⟩
      (pebble.Store.Delete ⟨pebbleMapDB, ws, codec⟩ stP k).2 k =
      (none, (pebble.Store.Delete ⟨pebbleMapDB, ws, codec⟩ stP k).2) ∧
    (kvLookup stR k = none →
      ristretto.Store.Delete ⟨ristrettoMapCache, codec⟩ stR k = (none, stR)) ∧
    ristretto.Store.Delete ⟨ristrettoMapCache, codec⟩
      (ristretto.Store.Delete ⟨ristrettoMapCache, codec⟩ stR k).2 k =
      (none, (ristretto.Store.Delete ⟨ristrettoMapCache, codec⟩ stR k).2) ∧
    (kvLookup stN (b, k) = none →
      nutsdb.Store.Delete ⟨nutsMapDB, b, codec⟩ stN k = (none, stN)) ∧
    nutsdb.Store.Delete ⟨nutsMapDB, b, codec⟩
      (nutsdb.Store.Delete ⟨nutsMapDB, b, codec⟩ stN k).2 k =
      (none, (nutsdb.Store.Delete ⟨nutsMapDB, b, codec⟩ stN k).2) := by
  refine ⟨?_, ?_, ?_, ?_, ?_, ?_⟩
  · intro h
    simp [pebble.Store.Delete, util.CheckKey, hk, pebbleMapDB,
      kvRemove_eq_self_of_lookup_none _ _ h]
  · simp [pebble.Store.Delete, util.CheckKey, hk, pebbleMapDB, kvRemove_kvRemove_self]
  · intro h
    simp [ristretto.Store.Delete, util.CheckKey, hk, ristrettoMapCache,
      kvRemove_eq_self_of_lookup_none _ _ h]
  · simp [ristretto.Store.Delete, util.CheckKey, hk, ristrettoMapCache,
      kvRemove_kvRemove_self]
  · intro h
    simp [nutsdb.Store.Delete, util.CheckKey, hk, nutsMapDB,
      kvRemove_eq_self_of_lookup_none _ _ h]
  · simp [nutsdb.Store.Delete, util.CheckKey, hk, nutsMapDB, kvRemove_kvRemove_self]

/-- C5 witness: concrete evaluation with key "x" absent from each state. -/
theorem C5_delete_idempotent_witness :
    ("x" : String) ≠ "" ∧
    pebble.Store.Delete ⟨pebbleMapDB, false, natCodec⟩ [("y", [1])] "x" =
      (none, [("y", [1])]) ∧
    pebble.Store.Delete ⟨pebbleMapDB, false, natCodec⟩
      (pebble.Store.Delete ⟨pebbleMapDB, false, natCodec⟩ [("y", [1])] "x").2 "x" =
      (none, (pebble.Store.Delete ⟨pebbleMapDB, false, natCodec⟩ [("y", [1])] "x").2) ∧
    ristretto.Store.Delete ⟨ristrettoMapCache, natCodec⟩ [] "x" = (none, []) ∧
    nutsdb.Store.Delete ⟨nutsMapDB, "b", natCodec⟩ [] "x" = (none, []) :=
  ⟨by decide,
    (C5_delete_idempotent natCodec "x" "b" false [("y", [1])] [] [] (by decide)).1
      (by decide),
    (C5_delete_idempotent natCodec "x" "b" false [("y", [1])] [] [] (by decide)).2.1,
    (C5_delete_idempotent natCodec "x" "b" false [("y", [1])] [] [] (by decide)).2.2.1
      (by decide),
    (C5_delete_idempotent natCodec "x" "b" false [("y", [1])] [] [] (by decide)).2.2.2.2.1
      (by decide)⟩

/-- C6: on every adapter, over an ARBITRARY engine and state, `Set`/`Get`
with an empty key, `Set` with a nil value, `Get` with a nil target, and
`Delete` with an empty key each return the corresponding non-nil validation
error and leave the engine state untouched — the check happens before any
engine interaction, since the result does not depend on the engine at all. -/
theorem C6_validation_before_engine {σ1 σ2 σ3 α : Type}
    (e1 : pebble.DB σ1) (e2 : ristretto.Cache σ2) (e3 : nutsdb.DB σ3)
    (codec : Codec α) (ws : Bool) (b k : String)
    (st1 : σ1) (st2 : σ2) (st3 : σ3) (v : GoVal α)
    (hk : k ≠ "") :
    pebble.Store.Set ⟨e1, ws, codec⟩ st1 "" v = (some Err.emptyKey, st1) ∧
    pebble.Store.Get ⟨e1, ws, codec⟩ st1 "" v = ⟨false, some Err.emptyKey, none⟩ ∧
    pebble.Store.Delete ⟨e1, ws, codec⟩ st1 "" = (some Err.emptyKey, st1) ∧
    ristretto.Store.Set ⟨e2, codec⟩ st2 "" v = (some Err.emptyKey, st2) ∧
    ristretto.Store.Get ⟨e2, codec⟩ st2 "" v = ⟨false, some Err.emptyKey, none⟩ ∧
    ristretto.Store.Delete ⟨e2, codec⟩ st2 "" = (some Err.emptyKey, st2) ∧
    nutsdb.Store.Set ⟨e3, b, codec⟩ st3 "" v = (some Err.emptyKey, st3) ∧
    nutsdb.Store.Get ⟨e3, b, codec⟩ st3 "" v = ⟨false, some Err.emptyKey, none⟩ ∧
    nutsdb.Store.Delete ⟨e3, b, codec⟩ st3 "" = (some Err.emptyKey, st3) ∧
    pebble.Store.Set ⟨e1, ws, codec⟩ st1 k GoVal.nil = (some Err.nilValue, st1) ∧
    pebble.Store.Get ⟨e1, ws, codec⟩ st1 k GoVal.nil =
      ⟨false, some Err.nilValue, none⟩ ∧
    ristretto.Store.Set ⟨e2, codec⟩ st2 k GoVal.nil = (some Err.nilValue, st2) ∧
    ristretto.Store.Get ⟨e2, codec⟩ st2 k GoVal.nil =
      ⟨false, some Err.nilValue, none⟩ ∧
    nutsdb.Store.Set ⟨e3, b, codec⟩ st3 k GoVal.nil = (some Err.nilValue, st3) ∧
    nutsdb.Store.Get ⟨e3, b, codec⟩ st3 k GoVal.nil =
      ⟨false, some Err.nilValue, none⟩ := by
  refine ⟨?_, ?_, ?_, ?_, ?_, ?_, ?_, ?_, ?_, ?_, ?_, ?_, ?_, ?_, ?_⟩ <;>
    simp [pebble.Store.Set, pebble.Store.Get, pebble.Store.Delete,
      ristretto.Store.Set, ristretto.Store.Get, ristretto.Store.Delete,
      nutsdb.Store.Set, nutsdb.Store.Get, nutsdb.Store.Delete,
      util.CheckKeyAndValue, util.CheckKey, hk]

/-- C6 witness: concrete evaluation on the healthy engines with key "x". -/
theorem C6_validation_before_engine_witness :
    ("x" : String) ≠ "" ∧
    pebble.Store.Set ⟨pebbleMapDB, false, natCodec⟩ [] "" (GoVal.val 1) =
      (some Err.emptyKey, []) ∧
    pebble.Store.Set ⟨pebbleMapDB, false, natCodec⟩ [] "x" GoVal.nil =
      (some Err.nilValue, []) ∧
    ristretto.Store.Get ⟨ristrettoMapCache, natCodec⟩ [] "x" GoVal.nil =
      ⟨false, some Err.nilValue, none⟩ ∧
    nutsdb.Store.Delete ⟨nutsMapDB, "b", natCodec⟩ [] "" = (some Err.emptyKey, []) :=
  ⟨by decide,
    (C6_validation_before_engine pebbleMapDB ristrettoMapCache nutsMapDB natCodec
      false "b" "x" [] [] [] (GoVal.val 1) (by decide)).1,
    (C6_validation_before_engine pebbleMapDB ristrettoMapCache nutsMapDB natCodec
      false "b" "x" [] [] [] (GoVal.val 1) (by decide)).2.2.2.2.2.2.2.2.2.1,
    (C6_validation_before_engine pebbleMapDB ristrettoMapCache nutsMapDB natCodec
      false "b" "x" [] [] [] (GoVal.val 1) (by decide)).2.2.2.2.2.2.2.2.2.2.2.2.1,
    (C6_validation_before_engine pebbleMapDB ristrettoMapCache nutsMapDB natCodec
      false "b" "x" [] [] [] (GoVal.val 1) (by decide)).2.2.2.2.2.2.2.2.1⟩

/-- C7: on every adapter, over an ARBITRARY engine whose lookup of a
non-empty key yields stored bytes that the codec cannot unmarshal into the
caller's target, `Get` returns that non-nil deserialization error (with
found = true on all three adapters): the error is surfaced, not swallowed. -/
theorem C7_unmarshal_error_surfaced {σ1 σ2 σ3 α : Type}
    (e1 : pebble.DB σ1) (e2 : ristretto.Cache σ2) (e3 : nutsdb.DB σ3)
    (codec : Codec α) (ws : Bool) (b k : String) (a0 : α)
    (st1 : σ1) (st2 : σ2) (st3 : σ3) (data : Bytes) (c : Option Err) (er : Err)
    (hk : k ≠ "")
    (hu : codec.Unmarshal data = Except.error er)
    (h1 : e1.Get st1 k = Except.ok (data, c))
    (h2 : e2.Get st2 k = (ristretto.IVal.bytes data, true))
    (h3 : e3.Get st3 b k = Except.ok (some data)) :
    pebble.Store.Get ⟨e1, ws, codec⟩ st1 k (GoVal.val a0) = ⟨true, some er, none⟩ ∧
    ristretto.Store.Get ⟨e2, codec⟩ st2 k (GoVal.val a0) = ⟨true, some er, none⟩ ∧
    nutsdb.Store.Get ⟨e3, b, codec⟩ st3 k (GoVal.val a0) = ⟨true, some er, none⟩ := by
  refine ⟨?_, ?_, ?_⟩
  · simp [pebble.Store.Get, util.CheckKeyAndValue, util.CheckKey, hk, h1, hu]
  · simp [ristretto.Store.Get, util.CheckKeyAndValue, util.CheckKey, hk, h2, hu]
  · simp [nutsdb.Store.Get, util.CheckKeyAndValue, util.CheckKey, hk, h3, hu]

/-- C7 witness: concrete evaluation with the toy codec and the healthy
engines holding the two-byte record [1, 2] under key "x", which the toy
codec cannot unmarshal. -/
theorem C7_unmarshal_error_surfaced_witness :
    (("x" : String) ≠ "" ∧
      Gokv.natCodec.Unmarshal [1, 2] = Except.error (Err.unmarshalFail 0)) ∧
    (pebble.Store.Get ⟨pebbleMapDB, false, natCodec⟩ [("x", [1, 2])] "x"
        (GoVal.val 0) = ⟨true, some (Err.unmarshalFail 0), none⟩ ∧
    ristretto.Store.Get ⟨ristrettoMapCache, natCodec⟩
        [("x", ristretto.IVal.bytes [1, 2])] "x" (GoVal.val 0) =
        ⟨true, some (Err.unmarshalFail 0), none⟩ ∧
    nutsdb.Store.Get ⟨nutsMapDB, "b", natCodec⟩ [(("b", "x"), [1, 2])] "x"
        (GoVal.val 0) = ⟨true, some (Err.unmarshalFail 0), none⟩) :=
  ⟨⟨by decide, rfl⟩,
    C7_unmarshal_error_surfaced pebbleMapDB ristrettoMapCache nutsMapDB natCodec
      false "b" "x" 0 [("x", [1, 2])] [("x", ristretto.IVal.bytes [1, 2])]
      [(("b", "x"), [1, 2])] [1, 2] none (Err.unmarshalFail 0)
      (by decide) rfl rfl rfl rfl⟩

/-- C8: on the ristretto adapter over an ARBITRARY cache, when validation
and marshalling succeed, a declined admission makes `Set` return the
dedicated non-nil sentinel `Err.pairIsNotAdded` (`ErrPairIsNotAdded`),
which is distinct from every engine error and from the not-found signal;
an admitted pair makes `Set` return nil. -/
theorem C8_admission_error_distinct {σ2 α : Type} (e2 : ristretto.Cache σ2)
    (codec : Codec α) (st st1 st2 : σ2) (k : String) (a : α) (data : Bytes)
    (hk : k ≠ "")
    (hm : codec.Marshal (GoVal.val a) = Except.ok data) :
    (e2.Set st k data 0 = (false, st1) →
      ristretto.Store.Set ⟨e2, codec⟩ st k (GoVal.val a) =
        (some Err.pairIsNotAdded, st1)) ∧
    (e2.Set st k data 0 = (true, st2) →
      ristretto.Store.Set ⟨e2, codec⟩ st k (GoVal.val a) = (none, st2)) ∧
    (∀ n : Nat, Err.pairIsNotAdded ≠ Err.engineFail n) ∧
    Err.pairIsNotAdded ≠ Err.engineNotFound := by
  refine ⟨?_, ?_, ?_, ?_⟩
  · intro h
    simp [ristretto.Store.Set, util.CheckKeyAndValue, util.CheckKey, hk, hm, h]
  · intro h
    simp [ristretto.Store.Set, util.CheckKeyAndValue, util.CheckKey, hk, hm, h]
  · intro n hn
    exact Err.noConfusion hn
  · intro hn
    exact Err.noConfusion hn

/-- C8 witness: concrete evaluation with the declining cache and with the
always-admitting healthy cache. -/
theorem C8_admission_error_distinct_witness :
    (("x" : String) ≠ "" ∧
      Gokv.natCodec.Marshal (GoVal.val 5) = Except.ok [5]) ∧
    ristretto.Store.Set ⟨decliningCache, natCodec⟩ () "x" (GoVal.val 5) =
      (some Err.pairIsNotAdded, ()) ∧
    ristretto.Store.Set ⟨ristrettoMapCache, natCodec⟩ [] "x" (GoVal.val 5) =
      (none, [("x", ristretto.IVal.bytes [5])]) :=
  ⟨⟨by decide, rfl⟩,
    (C8_admission_error_distinct decliningCache natCodec () () () "x" 5 [5]
      (by decide) rfl).1 rfl,
    (C8_admission_error_distinct ristrettoMapCache natCodec [] []
      [("x", ristretto.IVal.bytes [5])] "x" 5 [5] (by decide) rfl).2.1 rfl⟩

/-- C9: the defaulting blocks of all three `NewStore` constructors operate on
the constructor's own by-value copy of the options: for every package state
(holding the `DefaultOptions` variable) and every caller options value, the
package state after the defaulting block equals the one before it — the
shared default is never mutated in place. -/
theorem C9_default_options_not_mutated (psP : pebble.PkgState) (oP : pebble.Options)
    (psR : ristretto.PkgState) (oR : ristretto.Options)
    (psN : nutsdb.PkgState) (oN : nutsdb.Options) :
    (pebble.NewStore.setDefaults (psP, oP)).1 = psP ∧
    (ristretto.NewStore.setDefaults (psR, oR)).1 = psR ∧
    (nutsdb.NewStore.setDefaults (psN, oN)).1 = psN := by
  refine ⟨?_, ?_, ?_⟩
  · simp only [pebble.NewStore.setDefaults]
    split <;> split <;> rfl
  · by_cases h : oR.Codec = none <;> simp [ristretto.NewStore.setDefaults, h]
  · simp only [nutsdb.NewStore.setDefaults]
    split <;> split <;> split <;> split <;> rfl

/-- C10: on the ristretto adapter over an ARBITRARY cache, a lookup that
reports the key present but holds a nil value is answered with
`(false, nil)` (treated as absent, not as an error), and `Get` reports
found = true only when the lookup reported ok with a byte-slice value. -/
theorem C10_nil_cache_value_is_absent {σ2 α : Type} (e2 : ristretto.Cache σ2)
    (codec : Codec α) (st : σ2) (k : String) (a0 : α)
    (hk : k ≠ "") :
    (e2.Get st k = (ristretto.IVal.nil, true) →
      ristretto.Store.Get ⟨e2, codec⟩ st k (GoVal.val a0) = ⟨false, none, none⟩) ∧
    ((ristretto.Store.Get ⟨e2, codec⟩ st k (GoVal.val a0)).found = true →
      (e2.Get st k).2 = true ∧ ∃ data, (e2.Get st k).1 = ristretto.IVal.bytes data) := by
  constructor
  · intro h
    simp [ristretto.Store.Get, util.CheckKeyAndValue, util.CheckKey, hk, h]
  · rcases hget : e2.Get st k with ⟨value, ok⟩
    intro hfound
    cases ok with
    | false =>
      simp [ristretto.Store.Get, util.CheckKeyAndValue, util.CheckKey, hk, hget]
        at hfound
    | true =>
      cases value with
      | nil =>
        simp [ristretto.Store.Get, util.CheckKeyAndValue, util.CheckKey, hk, hget]
          at hfound
      | bytes data => exact ⟨rfl, data, rfl⟩
      | other t =>
        simp [ristretto.Store.Get, util.CheckKeyAndValue, util.CheckKey, hk, hget]
          at hfound

/-- C10 witness: concrete evaluation with the cache that reports key "x"
present with a nil value. -/
theorem C10_nil_cache_value_is_absent_witness :
    ("x" : String) ≠ "" ∧
    ristretto.Store.Get ⟨nilEntryCache, natCodec⟩ () "x" (GoVal.val 0) =
      ⟨false, none, none⟩ :=
  ⟨by decide,
    (C10_nil_cache_value_is_absent nilEntryCache natCodec () "x" 0 (by decide)).1 rfl⟩

end Gokv
